import Mathlib

/-!
# Verification of the SELENE caching and deterministic-analysis core

A shallow embedding, in Lean 4, of the cache infrastructure of
`src/selene/core/med_logic.py` and of the statistical engine of
`src/selene/core/deterministic_analysis.py` (with the severity map of
`src/selene/constants.py`), together with theorems settling the spec's
claims about them.

Modelling conventions:
* Python floats are modelled by exact rationals (`ℚ`); machine rounding is
  not modelled, but the explicit decimal rounding done by the source
  (`round(x, n)`, round-half-to-even) is.
* Python `datetime` instants are modelled by rationals (seconds), passed
  explicitly to every operation that calls `datetime.now()`.
* Python dicts are modelled by insertion-ordered association lists, which
  is exactly the iteration-order semantics of modern Python dicts.
* Module-level cache singletons are modelled by explicit state passing.
-/

set_option maxHeartbeats 1000000

namespace Selene

/-! ## Python-value model

Dynamically typed values that can reach `_map_symptom_to_score` and
`generate_cache_key`.  Python booleans are integers (`True == 1`), so they
are subsumed by the `int` constructor.  The `obj` constructor models any
other Python object, carrying its `str(...)` representation. -/

inductive PyVal where
  | int (n : ℤ)
  | float (q : ℚ)
  | str (s : String)
  | obj (repr : String)
deriving DecidableEq, Repr

/-- `SYMPTOM_SEVERITY_MAP` from `src/selene/constants.py` (lines 11–25):
standardized symptom label → numeric score, 0 = no symptoms, 10 = maximum
disruption. -/
def SYMPTOM_SEVERITY_MAP : List (String × ℚ) :=
  [("Restorative", 0), ("Fragmented", 5), ("3 AM Awakening", 9),
   ("Cool", 0), ("Warm", 4), ("Flashing", 7), ("Heavy", 10),
   ("Focused", 0), ("Neutral", 4), ("Brain Fog", 9)]

/-- Dict lookup (`value in map` / `map[value]`) on an association list. -/
def lookupMap (m : List (String × ℚ)) (s : String) : Option ℚ :=
  (m.find? (fun p => p.1 == s)).map (fun p => p.2)

/-- Models the Python builtin `float(s)` on a plain decimal literal:
optional sign, then digits with an optional decimal point (Python also
accepts surrounding whitespace, which `trim` models).  Exponent notation
and `inf`/`nan` spellings are outside the modelled fragment.  Returns the
exact rational value of the literal. -/
def natOfDigits (cs : List Char) : ℕ :=
  cs.foldl (fun a c => a * 10 + (c.toNat - 48)) 0

def parseUnsigned (cs : List Char) : Option ℚ :=
  let ip := cs.takeWhile Char.isDigit
  let rest := cs.dropWhile Char.isDigit
  match rest with
  | [] => if ip.isEmpty then none else some (natOfDigits ip)
  | c :: fp =>
    if c = '.' ∧ fp.all Char.isDigit ∧ ¬(ip.isEmpty ∧ fp.isEmpty) then
      some ((natOfDigits ip : ℚ) + (natOfDigits fp : ℚ) / (10 : ℚ) ^ fp.length)
    else none

def parseFloat (s : String) : Option ℚ :=
  match s.trim.data with
  | '+' :: cs => parseUnsigned cs
  | '-' :: cs => (parseUnsigned cs).map (fun q => -q)
  | cs => parseUnsigned cs

/-- `DeterministicAnalyzer._map_symptom_to_score`
(`deterministic_analysis.py` lines 69–96): convert qualitative labels or
numeric strings to float scores.  The argument is `Option PyVal`, with
`none` modelling the Python value `None`. -/
def map_symptom_to_score : Option PyVal → Option ℚ
  | none => none
  | some (.int n) => some (n : ℚ)
  | some (.float q) => some q
  | some (.str s) =>
    match lookupMap SYMPTOM_SEVERITY_MAP s with
    | some m => some m
    | none =>
      match parseFloat s with
      | some num => some num
      | none => none
  | some (.obj _) => none

/-- Python's exception model for the same function: the only operation in
its body that can raise is the builtin `float(value)` on a string, which
raises `ValueError` on an unparseable literal; the source wraps it in
`try/except ValueError`.  `PyError.valueError` models that exception. -/
inductive PyError where
  | valueError
deriving DecidableEq, Repr

/-- The builtin `float(s)` with its exception behavior. -/
def pyFloatE (s : String) : Except PyError ℚ :=
  match parseFloat s with
  | some q => Except.ok q
  | none => Except.error PyError.valueError

/-- `_map_symptom_to_score` with the exception flow made explicit:
the `try: float(value) except ValueError: return None` of the source. -/
def map_symptom_to_score_E : Option PyVal → Except PyError (Option ℚ)
  | none => Except.ok none
  | some (.int n) => Except.ok (some (n : ℚ))
  | some (.float q) => Except.ok (some q)
  | some (.str s) =>
    match lookupMap SYMPTOM_SEVERITY_MAP s with
    | some m => Except.ok (some m)
    | none =>
      match pyFloatE s with
      | Except.ok num => Except.ok (some num)
      | Except.error PyError.valueError => Except.ok none
  | some (.obj _) => Except.ok none

/-! ## Pulse entries

A pulse entry is a Python dict.  For the three symptom keys the outer
`Option` models key presence (`key in e`) and the inner `Option PyVal`
models the stored value (`none` = a stored Python `None`). -/

structure PulseEntry where
  rest : Option (Option PyVal) := none
  climate : Option (Option PyVal) := none
  clarity : Option (Option PyVal) := none
  notes : Option String := none
deriving DecidableEq, Repr

/-- `key in e` for the keys the analyzer consults. -/
def PulseEntry.hasKey (e : PulseEntry) (key : String) : Bool :=
  match key with
  | "rest" => e.rest.isSome
  | "climate" => e.climate.isSome
  | "clarity" => e.clarity.isSome
  | "notes" => e.notes.isSome
  | _ => false

/-- `e.get(key)` (default `None`) for the symptom keys. -/
def PulseEntry.get (e : PulseEntry) (key : String) : Option PyVal :=
  match key with
  | "rest" => e.rest.getD none
  | "climate" => e.climate.getD none
  | "clarity" => e.clarity.getD none
  | _ => none

/-- The value-extraction prefix of `analyze_symptom_statistics`
(lines 121–123): `raw_values = [e.get(k) for e in entries if k in e]`,
map through the severity mapper, drop the `None`s. -/
def symptomValues (entries : List PulseEntry) (key : String) : List ℚ :=
  ((entries.filter (fun e => e.hasKey key)).map
    (fun e => map_symptom_to_score (e.get key))).filterMap id

/-! ## Numeric helpers (NumPy / SciPy operations, exact over ℚ) -/

/-- `np.mean` (the empty case, `0/0 = 0` in ℚ, is never consulted by the
source without a nonemptiness guard). -/
def qmean (l : List ℚ) : ℚ := l.sum / l.length

/-- Ascending insertion sort, modelling the sort inside `np.median`. -/
def insertAsc (x : ℚ) : List ℚ → List ℚ
  | [] => [x]
  | y :: ys => if x ≤ y then x :: y :: ys else y :: insertAsc x ys

def sortAsc (l : List ℚ) : List ℚ := l.foldr insertAsc []

/-- `np.median`: middle element of the sorted list, or the mean of the two
middle elements for even length. -/
def qmedian (l : List ℚ) : ℚ :=
  let s := sortAsc l
  let n := l.length
  if n % 2 = 1 then s.getD (n / 2) 0
  else (s.getD (n / 2 - 1) 0 + s.getD (n / 2) 0) / 2

def qmin (l : List ℚ) : ℚ :=
  match l with
  | [] => 0
  | x :: xs => xs.foldl min x

def qmax (l : List ℚ) : ℚ :=
  match l with
  | [] => 0
  | x :: xs => xs.foldl max x

/-- The square of `np.std` (population variance).  The standard deviation
itself is an irrational square root; since no claim consults its value,
the embedding stores the exact variance instead (the source additionally
rounds `std_dev` to 2 decimals). -/
def qvariance (l : List ℚ) : ℚ :=
  (l.map (fun v => (v - qmean l) ^ 2)).sum / l.length

/-- OLS slope of `scipy.stats.linregress(x, ys)` with `x = 0..n-1`:
`Σ(x-x̄)(y-ȳ) / Σ(x-x̄)²`. -/
def linregressSlope (ys : List ℚ) : ℚ :=
  let xs := (List.range ys.length).map (fun i => (i : ℚ))
  let xbar := qmean xs
  let ybar := qmean ys
  let sxy := (List.zipWith (fun x y => (x - xbar) * (y - ybar)) xs ys).sum
  let sxx := (xs.map (fun x => (x - xbar) ^ 2)).sum
  sxy / sxx

/-- `r_value ** 2` of the same regression (`scipy` reports `r = 0` when a
series is constant, so `r² = 0` under a zero denominator). -/
def linregressR2 (ys : List ℚ) : ℚ :=
  let xs := (List.range ys.length).map (fun i => (i : ℚ))
  let xbar := qmean xs
  let ybar := qmean ys
  let sxy := (List.zipWith (fun x y => (x - xbar) * (y - ybar)) xs ys).sum
  let sxx := (xs.map (fun x => (x - xbar) ^ 2)).sum
  let syy := (ys.map (fun y => (y - ybar) ^ 2)).sum
  if sxx * syy = 0 then 0 else sxy ^ 2 / (sxx * syy)

/-- Python's `round(q)` (round half to even) on an exact rational. -/
def roundHalfEven (q : ℚ) : ℤ :=
  let n := ⌊q⌋
  let r := q - n
  if 1 / 2 < r then n + 1
  else if r < 1 / 2 then n
  else if n % 2 = 0 then n else n + 1

/-- Python's `round(q, d)`. -/
def roundTo (d : ℕ) (q : ℚ) : ℚ :=
  (roundHalfEven (q * 10 ^ d) : ℚ) / 10 ^ d

/-! ## `analyze_symptom_statistics` and `_analyze_trend` -/

/-- The `SymptomStatistics` dataclass (`deterministic_analysis.py` lines
24–37), with `std_dev` stored squared (see `qvariance`). -/
structure SymptomStatistics where
  mean : ℚ
  median : ℚ
  std_dev_sq : ℚ
  min_val : ℚ
  max_val : ℚ
  trend : String
  trend_slope : ℚ
  recent_avg : ℚ
  previous_avg : ℚ
  percent_change : ℚ
deriving DecidableEq, Repr

/-- `self.min_data_points` set in `DeterministicAnalyzer.__init__`. -/
def min_data_points : ℕ := 7

/-- `DeterministicAnalyzer.analyze_symptom_statistics`
(`deterministic_analysis.py` lines 102–178). -/
def analyze_symptom_statistics (entries : List PulseEntry) (key : String) :
    Option SymptomStatistics :=
  let values := symptomValues entries key
  if values.length < min_data_points then none
  else
    let mid_point := values.length / 2
    let recent_values := values.drop mid_point
    let previous_values := values.take mid_point
    let recent_avg := qmean recent_values
    let previous_avg := qmean previous_values
    let percent_change :=
      if 0 < previous_avg then (recent_avg - previous_avg) / previous_avg * 100 else 0
    let slope := linregressSlope values
    let trend :=
      if 0.05 < slope then "worsening"
      else if slope < -0.05 then "improving"
      else "stable"
    some
      { mean := roundTo 2 (qmean values)
        median := roundTo 2 (qmedian values)
        std_dev_sq := qvariance values
        min_val := roundTo 2 (qmin values)
        max_val := roundTo 2 (qmax values)
        trend := trend
        trend_slope := roundTo 4 slope
        recent_avg := roundTo 2 recent_avg
        previous_avg := roundTo 2 previous_avg
        percent_change := roundTo 2 percent_change }

/-- `DeterministicAnalyzer._analyze_trend`
(`deterministic_analysis.py` lines 304–324). -/
def analyze_trend (values : List ℚ) : String × ℚ :=
  if values.length < min_data_points then ("unknown", 0)
  else
    let slope := linregressSlope values
    let direction :=
      if |slope| < 0.05 then "stable"
      else if 0 < slope then "worsening"
      else "improving"
    (direction, roundTo 3 (linregressR2 values))

/-! ## `assess_risk_level` -/

/-- Python's substring test `needle in hay` on char lists. -/
def isPrefixOfChars : List Char → List Char → Bool
  | [], _ => true
  | _ :: _, [] => false
  | a :: as, b :: bs => a == b && isPrefixOfChars as bs

def isSubListOfChars : List Char → List Char → Bool
  | needle, [] => needle.isEmpty
  | needle, b :: bs => isPrefixOfChars needle (b :: bs) || isSubListOfChars needle bs

def pyIn (needle hay : String) : Bool := isSubListOfChars needle.data hay.data

/-- The result dict of `assess_risk_level`; the insufficient-data branch
returns a dict with no `rationale` key, modelled by `none`. -/
structure RiskAssessment where
  level : String
  score : ℤ
  flags : List String
  rationale : Option String
deriving DecidableEq, Repr

/-- The `rationale_map` of `_generate_risk_rationale` (lines 494–501). -/
def rationale_map : List (String × String) :=
  [("persistent_poor_sleep", "Sleep disruption severity above 7/10 for past week"),
   ("severe_hot_flashes", "Hot flash severity above 7/10 average"),
   ("severe_brain_fog", "Brain fog severity above 7/10 average"),
   ("rapid_deterioration", "Symptom severity increased by >2 points in past week"),
   ("multiple_severe_symptoms", "Two or more severe symptoms occurring simultaneously"),
   ("concerning_user_notes", "User notes indicate extreme distress")]

/-- `DeterministicAnalyzer._generate_risk_rationale` (lines 492–505). -/
def generate_risk_rationale (level : String) (flags : List String) (score : ℤ) : String :=
  let rationales := flags.map (fun f =>
    ((rationale_map.find? (fun p => p.1 == f)).map (fun p => p.2)).getD f)
  "Risk level: " ++ level.toUpper ++ " (score: " ++ toString score ++ "/10). " ++
    String.intercalate "; " rationales

/-- The `concerning_keywords` list of `assess_risk_level` (lines 462–469). -/
def concerning_keywords : List String :=
  ["unbearable", "emergency", "extreme", "can\x27t", "terrible", "awful"]

/-- `DeterministicAnalyzer.assess_risk_level`
(`deterministic_analysis.py` lines 391–490).  Sequential flag appends and
score increments are written as one ordered concatenation / sum of the
same guarded contributions. -/
def assess_risk_level (entries : List PulseEntry) : RiskAssessment :=
  if entries.length < 7 then
    { level := "insufficient_data", score := 0, flags := [], rationale := none }
  else
    let recent := entries.drop (entries.length - 7)
    let rest_values :=
      (recent.map (fun e => map_symptom_to_score (e.get "rest"))).filterMap id
    let climate_values :=
      (recent.map (fun e => map_symptom_to_score (e.get "climate"))).filterMap id
    let clarity_values :=
      (recent.map (fun e => map_symptom_to_score (e.get "clarity"))).filterMap id
    let c_sleep := rest_values ≠ [] ∧ 7 < qmean rest_values
    let c_climate := climate_values ≠ [] ∧ 7 < qmean climate_values
    let c_clarity := clarity_values ≠ [] ∧ 7 < qmean clarity_values
    let c_deterioration := 14 ≤ entries.length ∧
      (let prev_week := (entries.drop (entries.length - 14)).take 7
       let prev_rest_vals :=
         (prev_week.map (fun e => map_symptom_to_score (e.get "rest"))).filterMap id
       let prev_rest := if prev_rest_vals ≠ [] then qmean prev_rest_vals else 0
       let recent_rest := if rest_values ≠ [] then qmean rest_values else 0
       2 < recent_rest - prev_rest)
    let severe_count : ℕ :=
      (if c_sleep then 1 else 0) + (if c_climate then 1 else 0) +
        (if c_clarity then 1 else 0)
    let c_multiple := 2 ≤ severe_count
    let c_notes := recent.any (fun e =>
      concerning_keywords.any (fun kw => pyIn kw (e.notes.getD "").toLower))
    let flags :=
      (if c_sleep then ["persistent_poor_sleep"] else []) ++
      (if c_climate then ["severe_hot_flashes"] else []) ++
      (if c_clarity then ["severe_brain_fog"] else []) ++
      (if c_deterioration then ["rapid_deterioration"] else []) ++
      (if c_multiple then ["multiple_severe_symptoms"] else []) ++
      (if c_notes then ["concerning_user_notes"] else [])
    let risk_score : ℤ :=
      (if c_sleep then 2 else 0) + (if c_climate then 2 else 0) +
      (if c_clarity then 1 else 0) + (if c_deterioration then 3 else 0) +
      (if c_multiple then 2 else 0) + (if c_notes then 1 else 0)
    let level :=
      if 6 ≤ risk_score then "high"
      else if 3 ≤ risk_score then "moderate"
      else "low"
    { level := level, score := risk_score, flags := flags,
      rationale := some (generate_risk_rationale level flags risk_score) }

/-! ## TTL cache (`med_logic.py` lines 66–156)

The cache dict is an insertion-ordered association list with (invariantly)
unique keys, matching Python dict semantics.  `datetime.now()` is an
explicit `now : ℚ` argument; the mutex (which only serializes the
operations) has no observable effect in this sequential model. -/

/-- The `CacheEntry` dataclass (lines 66–81). -/
structure CacheEntry (α : Type) where
  value : α
  timestamp : ℚ
  ttl_seconds : ℤ
deriving DecidableEq, Repr

/-- `CacheEntry.is_expired`: `datetime.now() > self.timestamp +
timedelta(seconds=self.ttl_seconds)`. -/
def CacheEntry.is_expired (e : CacheEntry α) (now : ℚ) : Bool :=
  e.timestamp + (e.ttl_seconds : ℚ) < now

structure TTLCache (α : Type) where
  cache : List (String × CacheEntry α)
  max_size : ℕ
  hits : ℕ
  misses : ℕ
deriving DecidableEq, Repr

/-- `key in self.cache`. -/
def dictHasKey (l : List (String × CacheEntry α)) (k : String) : Bool :=
  l.any (fun p => p.1 == k)

/-- `self.cache[key]` / `self.cache.get(key)`. -/
def dictGet (l : List (String × CacheEntry α)) (k : String) : Option (CacheEntry α) :=
  (l.find? (fun p => p.1 == k)).map (fun p => p.2)

/-- `self.cache[key] = entry`: overwrite in place if present (keeping the
key's position in iteration order), else append at the end. -/
def dictInsert : List (String × CacheEntry α) → String → CacheEntry α →
    List (String × CacheEntry α)
  | [], k, e => [(k, e)]
  | p :: t, k, e => if p.1 == k then (k, e) :: t else p :: dictInsert t k e

/-- `del self.cache[key]`. -/
def dictErase (l : List (String × CacheEntry α)) (k : String) :
    List (String × CacheEntry α) :=
  l.filter (fun p => p.1 != k)

/-- `min(self.cache.keys(), key=lambda k: self.cache[k].timestamp)`:
Python's `min` keeps the earliest element of iteration order among ties. -/
def minByTimestamp (best : String × CacheEntry α) :
    List (String × CacheEntry α) → String × CacheEntry α
  | [] => best
  | p :: ps =>
    minByTimestamp (if p.2.timestamp < best.2.timestamp then p else best) ps

/-- `TTLCache._evict_oldest` (lines 123–129). -/
def TTLCache.evict_oldest (s : TTLCache α) : TTLCache α :=
  match s.cache with
  | [] => s
  | p :: ps =>
    let oldest := minByTimestamp p ps
    { s with cache := dictErase s.cache oldest.1 }

/-- `TTLCache.get` (lines 94–111), returning the looked-up value and the
updated cache state. -/
def TTLCache.get (s : TTLCache α) (k : String) (now : ℚ) :
    Option α × TTLCache α :=
  match dictGet s.cache k with
  | some entry =>
    if entry.is_expired now then
      (none, { s with cache := dictErase s.cache k, misses := s.misses + 1 })
    else (some entry.value, { s with hits := s.hits + 1 })
  | none => (none, { s with misses := s.misses + 1 })

/-- `TTLCache.set` (lines 113–121). -/
def TTLCache.set (s : TTLCache α) (k : String) (v : α) (ttl_seconds : ℤ)
    (now : ℚ) : TTLCache α :=
  let s' :=
    if s.max_size ≤ s.cache.length ∧ ¬dictHasKey s.cache k then s.evict_oldest
    else s
  { s' with
    cache := dictInsert s'.cache k
      { value := v, timestamp := now, ttl_seconds := ttl_seconds } }

/-- `TTLCache.clear` (lines 131–137). -/
def TTLCache.clear (s : TTLCache α) : TTLCache α :=
  { s with cache := [], hits := 0, misses := 0 }

/-- The dict returned by `TTLCache.get_stats`; the source formats
`hit_rate` as a percentage string (`f"{rate:.1f}%"`), modelled here by the
rational percentage value. -/
structure CacheStats where
  size : ℕ
  hits : ℕ
  misses : ℕ
  hit_rate : ℚ
  total_requests : ℕ
deriving DecidableEq, Repr

/-- `TTLCache.get_stats` (lines 139–150). -/
def TTLCache.get_stats (s : TTLCache α) : CacheStats :=
  let total_requests := s.hits + s.misses
  { size := s.cache.length
    hits := s.hits
    misses := s.misses
    hit_rate := if 0 < total_requests then (s.hits : ℚ) / total_requests * 100 else 0
    total_requests := total_requests }

/-- `invalidate_user_context_cache` (lines 799–803): calls
`user_context_cache.clear()`; the module-level cache is the explicit
state. -/
def invalidate_user_context_cache (user_context_cache : TTLCache α) : TTLCache α :=
  user_context_cache.clear

/-- `invalidate_rag_cache` (lines 806–810): calls `rag_cache.clear()`. -/
def invalidate_rag_cache (rag_cache : TTLCache α) : TTLCache α :=
  rag_cache.clear

/-! ## `generate_cache_key` (`med_logic.py` lines 164–176)

`hashlib.sha256(combined.encode()).hexdigest()` is modelled by a complete
executable SHA-256 over the UTF-8 bytes of the string, with 32-bit words
as naturals reduced mod `2^32`. -/

def w32 (n : ℕ) : ℕ := n % 4294967296

def rotr (k x : ℕ) : ℕ := x / 2 ^ k + x % 2 ^ k * 2 ^ (32 - k)

def shr (k x : ℕ) : ℕ := x / 2 ^ k

def wnot (x : ℕ) : ℕ := 4294967295 ^^^ x

def smallSigma0 (x : ℕ) : ℕ := rotr 7 x ^^^ rotr 18 x ^^^ shr 3 x

def smallSigma1 (x : ℕ) : ℕ := rotr 17 x ^^^ rotr 19 x ^^^ shr 10 x

def bigSigma0 (x : ℕ) : ℕ := rotr 2 x ^^^ rotr 13 x ^^^ rotr 22 x

def bigSigma1 (x : ℕ) : ℕ := rotr 6 x ^^^ rotr 11 x ^^^ rotr 25 x

def chF (x y z : ℕ) : ℕ := x &&& y ^^^ (wnot x &&& z)

def majF (x y z : ℕ) : ℕ := x &&& y ^^^ (x &&& z) ^^^ (y &&& z)

def sha256K : List ℕ :=
  [1116352408, 1899447441, 3049323471, 3921009573, 961987163,
   1508970993, 2453635748, 2870763221, 3624381080, 310598401,
   607225278, 1426881987, 1925078388, 2162078206, 2614888103,
   3248222580, 3835390401, 4022224774, 264347078, 604807628,
   770255983, 1249150122, 1555081692, 1996064986, 2554220882,
   2821834349, 2952996808, 3210313671, 3336571891, 3584528711,
   113926993, 338241895, 666307205, 773529912, 1294757372,
   1396182291, 1695183700, 1986661051, 2177026350, 2456956037,
   2730485921, 2820302411, 3259730800, 3345764771, 3516065817,
   3600352804, 4094571909, 275423344, 430227734, 506948616,
   659060556, 883997877, 958139571, 1322822218, 1537002063,
   1747873779, 1955562222, 2024104815, 2227730452, 2361852424,
   2428436474, 2756734187, 3204031479, 3329325298]

def sha256H0 : List ℕ :=
  [1779033703, 3144134277, 1013904242, 2773480762,
   1359893119, 2600822924, 528734635, 1541459225]

/-- Merkle–Damgård padding: a `0x80` byte, zeros to 56 mod 64, then the
bit length as 8 big-endian bytes. -/
def sha256Pad (msg : List ℕ) : List ℕ :=
  let len := msg.length
  let padZeros := (64 + 55 - len % 64) % 64
  let bitLen := 8 * len
  msg ++ [128] ++ List.replicate padZeros 0 ++
    (List.range 8).map (fun i => bitLen / 2 ^ (8 * (7 - i)) % 256)

def chunksOf64 (l : List ℕ) : List (List ℕ) :=
  match l with
  | [] => []
  | x :: xs => ((x :: xs).take 64) :: chunksOf64 (xs.drop 63)
termination_by l.length
decreasing_by simp [List.length_drop]; omega

def bytesToWords : List ℕ → List ℕ
  | b0 :: b1 :: b2 :: b3 :: rest =>
    (((b0 * 256 + b1) * 256 + b2) * 256 + b3) :: bytesToWords rest
  | _ => []

def extendSchedule (w16 : List ℕ) : List ℕ :=
  (List.range 48).foldl
    (fun ws _ =>
      let n := ws.length
      ws ++ [w32 (smallSigma1 (ws.getD (n - 2) 0) + ws.getD (n - 7) 0 +
        smallSigma0 (ws.getD (n - 15) 0) + ws.getD (n - 16) 0)])
    w16

def sha256Round (st : List ℕ) (ki wi : ℕ) : List ℕ :=
  let a := st.getD 0 0
  let b := st.getD 1 0
  let c := st.getD 2 0
  let d := st.getD 3 0
  let e := st.getD 4 0
  let f := st.getD 5 0
  let g := st.getD 6 0
  let hh := st.getD 7 0
  let t1 := w32 (hh + bigSigma1 e + chF e f g + ki + wi)
  let t2 := w32 (bigSigma0 a + majF a b c)
  [w32 (t1 + t2), a, b, c, w32 (d + t1), e, f, g]

def sha256Block (hsh block : List ℕ) : List ℕ :=
  let w := extendSchedule (bytesToWords block)
  let st := (List.range 64).foldl
    (fun st i => sha256Round st (sha256K.getD i 0) (w.getD i 0)) hsh
  (List.range 8).map (fun i => w32 (hsh.getD i 0 + st.getD i 0))

def sha256Words (msg : List ℕ) : List ℕ :=
  (chunksOf64 (sha256Pad msg)).foldl sha256Block sha256H0

/-- UTF-8 encoding of one code point (`str.encode()`). -/
def utf8Bytes (c : Char) : List ℕ :=
  let n := c.toNat
  if n < 0x80 then [n]
  else if n < 0x800 then [0xC0 ||| n / 64, 0x80 ||| n % 64]
  else if n < 0x10000 then
    [0xE0 ||| n / 4096, 0x80 ||| n / 64 % 64, 0x80 ||| n % 64]
  else
    [0xF0 ||| n / 262144, 0x80 ||| n / 4096 % 64, 0x80 ||| n / 64 % 64,
     0x80 ||| n % 64]

def strBytes (s : String) : List ℕ := (s.data.map utf8Bytes).flatten

def hexDigitChar (n : ℕ) : Char :=
  if n < 10 then Char.ofNat (48 + n) else Char.ofNat (87 + n)

def wordToHex (x : ℕ) : List Char :=
  ((List.range 8).reverse).map (fun i => hexDigitChar (x / 16 ^ i % 16))

/-- `hashlib.sha256(s.encode()).hexdigest()`. -/
def sha256Hex (s : String) : String :=
  String.mk (((sha256Words (strBytes s)).map wordToHex).flatten)

/-- Python's `str(arg)`, per constructor.  `str` of an `int` (including
bools, which print as their numeric names only via `repr`; the arguments
actually passed by the callers are strings and ints) matches `toString`
on `ℤ`; the `float` and `obj` cases carry a representation that no claim
depends on (Python's float `repr` is shortest-round-trip decimal, and
`str(object)` embeds a memory address; both are modelled by the stored
data). -/
def pyStr : PyVal → String
  | .int n => toString n
  | .float q => toString q
  | .str s => s
  | .obj r => r

/-- `generate_cache_key` (`med_logic.py` lines 164–176).  `*args` is the
argument list, `p` the keyword-only `prefix` (the `f"{prefix}:{digest}"`
branch is taken when the prefix string is truthy, i.e. nonempty). -/
def generate_cache_key (args : List PyVal) (p : String) : String :=
  let key_parts := args.map pyStr
  let combined := String.intercalate "|" key_parts
  let hash_digest := sha256Hex combined
  if p ≠ "" then p ++ ":" ++ hash_digest else hash_digest

/-! ## Concrete inputs used by the claim theorems -/

/-- Seven entries whose `rest` is "3 AM Awakening" (severity 9). -/
def sevenAwakening : List PulseEntry :=
  List.replicate 7 { rest := some (some (.str "3 AM Awakening")) }

/-- Seven entries with severe rest, climate and clarity labels. -/
def sevenSevere : List PulseEntry :=
  List.replicate 7
    { rest := some (some (.str "3 AM Awakening"))
      climate := some (some (.str "Heavy"))
      clarity := some (some (.str "Brain Fog")) }

/-- Seven entries of which only six have a non-null mapped `rest` value
(the last stores a Python `None`). -/
def sixValidEntries : List PulseEntry :=
  List.replicate 6 { rest := some (some (.int 5)) } ++ [{ rest := some none }]

/-- Seven entries, all with a valid `rest` value. -/
def sevenValidEntries : List PulseEntry :=
  List.replicate 7 { rest := some (some (.int 5)) }

/-- Five "Restorative" (score 0) entries followed by five
"3 AM Awakening" (score 9) entries. -/
def tenZeroNine : List PulseEntry :=
  List.replicate 5 { rest := some (some (.str "Restorative")) } ++
    List.replicate 5 { rest := some (some (.str "3 AM Awakening")) }

/-- Seven entries whose `rest` values are numeric strings with a negative
first-half average: `[-3, -3, -3, 0, 0, 0, 0]`. -/
def negPrevEntries : List PulseEntry :=
  List.replicate 3 { rest := some (some (.int (-3))) } ++
    List.replicate 4 { rest := some (some (.int 0)) }

/-- Seven entries whose `rest` values are the numeric strings
`0, 0.05, …, 0.3`, giving a regression slope of exactly 0.05. -/
def boundarySlopeEntries : List PulseEntry :=
  ["0", "0.05", "0.1", "0.15", "0.2", "0.25", "0.3"].map
    (fun s => { rest := some (some (.str s)) })

/-- A concrete two-entry cache of capacity two, for the C2 witness. -/
def twoEntryCache : TTLCache ℕ :=
  { cache := [("a", { value := 0, timestamp := 1, ttl_seconds := 10 }),
      ("b", { value := 0, timestamp := 0, ttl_seconds := 10 })]
    max_size := 2
    hits := 0
    misses := 0 }

/-! ## Helper lemmas on the dict model -/

theorem dictGet_insert_self (l : List (String × CacheEntry α)) (k : String)
    (e : CacheEntry α) : dictGet (dictInsert l k e) k = some e := by
  induction l with
  | nil => simp [dictInsert, dictGet, List.find?_cons]
  | cons p t ih =>
    by_cases hp : p.1 == k
    · simp [dictInsert, hp, dictGet, List.find?_cons]
    · simp only [dictInsert, hp, if_false, Bool.false_eq_true]
      simpa [dictGet, List.find?_cons, hp] using ih

theorem dictGet_erase_self (l : List (String × CacheEntry α)) (k : String) :
    dictGet (dictErase l k) k = none := by
  induction l with
  | nil => rfl
  | cons p t ih =>
    by_cases hp : p.1 == k
    · rw [dictErase] at ih ⊢
      simp only [List.filter_cons, bne, hp, Bool.not_true, if_neg]
      exact ih
    · simp [dictErase, dictGet, List.filter_cons, bne, hp, List.find?_cons]

theorem length_dictInsert (l : List (String × CacheEntry α)) (k : String)
    (e : CacheEntry α) :
    (dictInsert l k e).length =
      if dictHasKey l k then l.length else l.length + 1 := by
  induction l with
  | nil => simp [dictInsert, dictHasKey]
  | cons p t ih =>
    by_cases hp : p.1 == k
    · simp [dictInsert, dictHasKey, List.any_cons, hp]
    · simp only [dictInsert, hp, if_false, Bool.false_eq_true, List.length_cons, ih,
        dictHasKey, List.any_cons, Bool.false_or]
      split <;> simp

theorem dictErase_of_forall_ne (l : List (String × CacheEntry α)) (k : String)
    (h : ∀ q ∈ l, q.1 ≠ k) : dictErase l k = l := by
  rw [dictErase, List.filter_eq_self]
  intro q hq
  simpa [bne] using h q hq

theorem dictErase_split (l₁ l₂ : List (String × CacheEntry α)) (k : String)
    (e : CacheEntry α) (h1 : ∀ q ∈ l₁, q.1 ≠ k) (h2 : ∀ q ∈ l₂, q.1 ≠ k) :
    dictErase (l₁ ++ (k, e) :: l₂) k = l₁ ++ l₂ := by
  rw [dictErase, List.filter_append, List.filter_cons]
  have hh : (((k, e).1 != k) = true) = False := by simp
  rw [← dictErase, ← dictErase, dictErase_of_forall_ne l₁ k h1,
    dictErase_of_forall_ne l₂ k h2]
  simp [hh]

theorem minByTimestamp_split (ps : List (String × CacheEntry α))
    (p : String × CacheEntry α) :
    ∃ l₁ l₂, p :: ps = l₁ ++ minByTimestamp p ps :: l₂ ∧
      (∀ q ∈ l₁, (minByTimestamp p ps).2.timestamp < q.2.timestamp) ∧
      (∀ q ∈ l₂, (minByTimestamp p ps).2.timestamp ≤ q.2.timestamp) := by
  induction ps generalizing p with
  | nil => exact ⟨[], [], rfl, by simp, by simp⟩
  | cons q ps ih =>
    rw [minByTimestamp]
    by_cases hq : q.2.timestamp < p.2.timestamp
    · rw [if_pos hq]
      obtain ⟨l₁, l₂, heq, hlt, hle⟩ := ih q
      have hm_le_q : (minByTimestamp q ps).2.timestamp ≤ q.2.timestamp := by
        cases l₁ with
        | nil =>
          simp only [List.nil_append, List.cons.injEq] at heq
          exact le_of_eq (congrArg (fun r => r.2.timestamp) heq.1.symm)
        | cons a l₁' =>
          simp only [List.cons_append, List.cons.injEq] at heq
          exact le_of_lt (heq.1 ▸ hlt a (List.mem_cons_self a l₁'))
      refine ⟨p :: l₁, l₂, ?_, ?_, hle⟩
      · rw [List.cons_append, ← heq]
      · intro r hr
        rcases List.mem_cons.mp hr with rfl | hr'
        · exact lt_of_le_of_lt hm_le_q hq
        · exact hlt r hr'
    · rw [if_neg hq]
      obtain ⟨l₁, l₂, heq, hlt, hle⟩ := ih p
      cases l₁ with
      | nil =>
        simp only [List.nil_append, List.cons.injEq] at heq
        refine ⟨[], q :: l₂, ?_, by simp, ?_⟩
        · simp [← heq.1, ← heq.2]
        · intro r hr
          rcases List.mem_cons.mp hr with rfl | hr'
          · exact heq.1 ▸ le_of_not_lt hq
          · exact hle r hr'
      | cons a l₁' =>
        simp only [List.cons_append, List.cons.injEq] at heq
        refine ⟨p :: q :: l₁', l₂, ?_, ?_, hle⟩
        · simp only [List.cons_append, List.cons.injEq, true_and]
          exact heq.2
        · intro r hr
          rcases List.mem_cons.mp hr with rfl | hr'
          · exact heq.1 ▸ hlt a (List.mem_cons_self a l₁')
          · rcases List.mem_cons.mp hr' with rfl | hr''
            · exact lt_of_lt_of_le (heq.1 ▸ hlt a (List.mem_cons_self a l₁'))
                (le_of_not_lt hq)
            · exact hlt r (List.mem_cons_of_mem a hr'')

theorem cache_set_lookup {α : Type} (s : TTLCache α) (k : String) (v : α)
    (ttl : ℤ) (now : ℚ) :
    dictGet (s.set k v ttl now).cache k =
      some { value := v, timestamp := now, ttl_seconds := ttl } := by
  unfold TTLCache.set
  exact dictGet_insert_self _ k _

theorem dictInsert_of_hasKey_false (l : List (String × CacheEntry α))
    (k : String) (e : CacheEntry α) (h : dictHasKey l k = false) :
    dictInsert l k e = l ++ [(k, e)] := by
  induction l with
  | nil => rfl
  | cons p t ih =>
    rw [dictHasKey, List.any_cons, Bool.or_eq_false_iff] at h
    rw [dictInsert, if_neg (by simp [h.1]), ih h.2, List.cons_append]

theorem evict_oldest_cache {α : Type} (s : TTLCache α)
    (p : String × CacheEntry α) (ps : List (String × CacheEntry α))
    (hc : s.cache = p :: ps) :
    s.evict_oldest.cache = dictErase (p :: ps) (minByTimestamp p ps).1 := by
  obtain ⟨c, ms, h, mi⟩ := s
  simp only at hc
  subst hc
  rfl

theorem set_cache_of_cond {α : Type} {s : TTLCache α} {k : String} (v : α)
    (ttl : ℤ) (now : ℚ)
    (h : s.max_size ≤ s.cache.length ∧ ¬dictHasKey s.cache k) :
    (s.set k v ttl now).cache =
      dictInsert s.evict_oldest.cache k
        { value := v, timestamp := now, ttl_seconds := ttl } := by
  simp only [TTLCache.set, if_pos h]

theorem set_cache_of_not_cond {α : Type} {s : TTLCache α} {k : String} (v : α)
    (ttl : ℤ) (now : ℚ)
    (h : ¬(s.max_size ≤ s.cache.length ∧ ¬dictHasKey s.cache k)) :
    (s.set k v ttl now).cache =
      dictInsert s.cache k { value := v, timestamp := now, ttl_seconds := ttl } := by
  simp only [TTLCache.set, if_neg h]

/-! ## Claims about the TTL cache -/

/-- **C1**: for every key and value, after `set(key, v, ttl_seconds)` with
`ttl_seconds > 0`, an immediate `get(key)` returns `v` and records a hit;
once the current time has advanced beyond `created_at + ttl_seconds`,
`get(key)` removes the entry, records a miss, and returns absent. -/
theorem C1_cache_ttl {α : Type} (s : TTLCache α) (k : String) (v : α)
    (ttl : ℤ) (t₀ t₁ : ℚ) (httl : 0 < ttl) (ht₁ : t₀ + (ttl : ℚ) < t₁) :
    ((s.set k v ttl t₀).get k t₀).1 = some v ∧
    ((s.set k v ttl t₀).get k t₀).2.hits = (s.set k v ttl t₀).hits + 1 ∧
    ((s.set k v ttl t₀).get k t₁).1 = none ∧
    ((s.set k v ttl t₀).get k t₁).2.misses = (s.set k v ttl t₀).misses + 1 ∧
    dictGet ((s.set k v ttl t₀).get k t₁).2.cache k = none := by
  have hlook := cache_set_lookup s k v ttl t₀
  have hfresh :
      CacheEntry.is_expired { value := v, timestamp := t₀, ttl_seconds := ttl } t₀ = false := by
    simp only [CacheEntry.is_expired, decide_eq_false_iff_not, not_lt]
    have : (0 : ℚ) < (ttl : ℚ) := by exact_mod_cast httl
    linarith
  have hexp :
      CacheEntry.is_expired { value := v, timestamp := t₀, ttl_seconds := ttl } t₁ = true := by
    simpa [CacheEntry.is_expired] using ht₁
  refine ⟨?_, ?_, ?_, ?_, ?_⟩ <;>
    simp [TTLCache.get, hlook, hfresh, hexp, dictGet_erase_self]

/-- Witness for C1 at a concrete cache, key, value, TTL and times. -/
theorem C1_cache_ttl_witness :
    (0 : ℤ) < 5 ∧ (0 : ℚ) + ((5 : ℤ) : ℚ) < 6 ∧
    ((({ cache := [], max_size := 10, hits := 0, misses := 0 } :
        TTLCache ℕ).set "k" 42 5 0).get "k" 0).1 = some 42 :=
  ⟨by decide, by norm_num,
   (C1_cache_ttl { cache := [], max_size := 10, hits := 0, misses := 0 }
     "k" 42 5 0 6 (by decide) (by norm_num)).1⟩

/-- **C2**: for a `TTLCache` with `max_size = N ≥ 1` (and the dict
invariants: unique keys, size at most `N`), after any `set` the number of
stored entries is at most `N`; and when an eviction happens (cache full,
fresh key) the entry removed is the unique first-in-iteration-order entry
with the oldest creation timestamp: the cache splits as
`l₁ ++ (kO, eO) :: l₂` with every entry of `l₁` strictly newer and every
entry of `l₂` at least as new, and the new cache is `l₁ ++ l₂` with the
fresh entry appended. -/
theorem C2_eviction_bound {α : Type} (s : TTLCache α) (k : String) (v : α)
    (ttl : ℤ) (now : ℚ) (hnd : (s.cache.map Prod.fst).Nodup)
    (hsz : s.cache.length ≤ s.max_size) (hmax : 1 ≤ s.max_size) :
    (s.set k v ttl now).cache.length ≤ s.max_size ∧
    (s.max_size ≤ s.cache.length → dictHasKey s.cache k = false →
      ∃ l₁ kO eO l₂,
        s.cache = l₁ ++ (kO, eO) :: l₂ ∧
        (∀ q ∈ l₁, eO.timestamp < q.2.timestamp) ∧
        (∀ q ∈ l₂, eO.timestamp ≤ q.2.timestamp) ∧
        (s.set k v ttl now).cache =
          (l₁ ++ l₂) ++ [(k, { value := v, timestamp := now, ttl_seconds := ttl })]) := by
  by_cases hcond : s.max_size ≤ s.cache.length ∧ ¬dictHasKey s.cache k
  · -- eviction path
    have hkey : dictHasKey s.cache k = false := by
      rcases hcond with ⟨_, hk⟩
      exact Bool.not_eq_true _ ▸ Bool.of_not_eq_true hk
    obtain ⟨p, ps, hc⟩ : ∃ p ps, s.cache = p :: ps := by
      rcases hcc : s.cache with _ | ⟨p, ps⟩
      · exfalso
        rw [hcc] at hcond
        simp at hcond
        omega
      · exact ⟨p, ps, rfl⟩
    obtain ⟨l₁, l₂, heq, hlt, hle⟩ := minByTimestamp_split ps p
    set m := minByTimestamp p ps with hm
    have hnd' : ((l₁ ++ m :: l₂).map Prod.fst).Nodup := by
      rw [hc, heq] at hnd
      exact hnd
    rw [List.map_append, List.map_cons, List.nodup_append] at hnd'
    obtain ⟨-, hnd₂, hdisj⟩ := hnd'
    have h1 : ∀ q ∈ l₁, q.1 ≠ m.1 := fun q hq habs =>
      hdisj (List.mem_map_of_mem Prod.fst hq) (habs ▸ List.mem_cons_self m.1 _)
    have h2 : ∀ q ∈ l₂, q.1 ≠ m.1 := by
      rw [List.nodup_cons] at hnd₂
      exact fun q hq habs => hnd₂.1 (habs ▸ List.mem_map_of_mem Prod.fst hq)
    have hkey₁ : dictHasKey l₁ k = false ∧ dictHasKey l₂ k = false := by
      rw [hc, heq] at hkey
      rw [dictHasKey, List.any_append, List.any_cons, Bool.or_eq_false_iff,
        Bool.or_eq_false_iff] at hkey
      exact ⟨hkey.1, hkey.2.2⟩
    have herase : s.evict_oldest.cache = l₁ ++ l₂ := by
      rw [evict_oldest_cache s p ps hc, heq, ← hm]
      have : m = (m.1, m.2) := rfl
      rw [this]
      exact dictErase_split l₁ l₂ m.1 m.2 h1 h2
    have hinsert : (s.set k v ttl now).cache =
        (l₁ ++ l₂) ++ [(k, { value := v, timestamp := now, ttl_seconds := ttl })] := by
      rw [set_cache_of_cond v ttl now hcond, herase]
      refine dictInsert_of_hasKey_false _ _ _ ?_
      rw [dictHasKey, List.any_append, Bool.or_eq_false_iff]
      exact hkey₁
    have hlen : s.cache.length = l₁.length + 1 + l₂.length := by
      rw [hc, heq]
      simp only [List.length_append, List.length_cons]
      omega
    constructor
    · rw [hlen] at hsz
      rw [hinsert]
      simp only [List.length_append, List.length_cons, List.length_nil]
      omega
    · intro _ _
      exact ⟨l₁, m.1, m.2, l₂, by rw [hc, heq], hlt, hle, hinsert⟩
  · -- no eviction
    have hcache := set_cache_of_not_cond (s := s) (k := k) v ttl now hcond
    constructor
    · rw [hcache, length_dictInsert]
      by_cases hk : dictHasKey s.cache k
      · rw [if_pos hk]
        exact hsz
      · rw [if_neg hk]
        have : ¬s.max_size ≤ s.cache.length := fun hle => hcond ⟨hle, hk⟩
        omega
    · intro hfull hkey
      exact absurd ⟨hfull, by simp [hkey]⟩ hcond

/-- Witness for C2 at a concrete full cache: inserting a fresh key into a
two-entry cache of capacity two keeps the size at two. -/
theorem C2_eviction_bound_witness :
    ((twoEntryCache.cache.map Prod.fst).Nodup ∧
      twoEntryCache.cache.length ≤ twoEntryCache.max_size ∧
      1 ≤ twoEntryCache.max_size) ∧
    (twoEntryCache.set "c" 7 5 3).cache.length ≤ twoEntryCache.max_size :=
  ⟨⟨by decide, by decide, by decide⟩,
   (C2_eviction_bound twoEntryCache "c" 7 5 3 (by decide) (by decide)
     (by decide)).1⟩

/-- **C10**: `clear()` resets the hit and miss counters to zero in
addition to removing all entries, so `get_stats()` after a clear reports
size 0, hits 0, misses 0 and total_requests 0; the eager invalidation
hooks are exactly `clear()` on their cache. -/
theorem C10_clear_resets_stats {α : Type} (s : TTLCache α) :
    s.clear.get_stats = ⟨0, 0, 0, 0, 0⟩ ∧
    invalidate_user_context_cache s = s.clear ∧
    invalidate_rag_cache s = s.clear :=
  ⟨rfl, rfl, rfl⟩

/-! ## Claims about the deterministic analyzer -/

/-- **C3**: `assess_risk_level` on 7 entries all with rest
"3 AM Awakening" yields `persistent_poor_sleep`, score ≥ 2 and level
"low"; on 7 entries that additionally have climate "Heavy" and clarity
"Brain Fog" it yields `multiple_severe_symptoms`, level "high" and score
≥ 6; and on fewer than 7 entries it returns level `insufficient_data`
with score 0 and no flags. -/
theorem C3_risk_levels :
    (∀ entries : List PulseEntry, entries.length < 7 →
      assess_risk_level entries =
        { level := "insufficient_data", score := 0, flags := [], rationale := none }) ∧
    ("persistent_poor_sleep" ∈ (assess_risk_level sevenAwakening).flags ∧
      2 ≤ (assess_risk_level sevenAwakening).score ∧
      (assess_risk_level sevenAwakening).level = "low") ∧
    ("multiple_severe_symptoms" ∈ (assess_risk_level sevenSevere).flags ∧
      (assess_risk_level sevenSevere).level = "high" ∧
      6 ≤ (assess_risk_level sevenSevere).score) := by
  refine ⟨?_, by with_unfolding_all decide, by with_unfolding_all decide⟩
  intro entries h
  rw [assess_risk_level, if_pos h]

/-- Witness for C3 discharging the length hypothesis at the empty entry
list. -/
theorem C3_risk_levels_witness :
    ([] : List PulseEntry).length < 7 ∧
    assess_risk_level [] =
      { level := "insufficient_data", score := 0, flags := [], rationale := none } :=
  ⟨by decide, C3_risk_levels.1 [] (by decide)⟩

/-- **C4**: `_map_symptom_to_score` returns `None` for `None`; numeric
input unchanged as a float; every label of the severity map to its mapped
value in [0, 10]; a numeric string to its exactly parsed float
("7.5" ↦ 7.5); and `None` for unrecognized strings and for other input
types. -/
theorem C4_severity_mapping :
    map_symptom_to_score none = none ∧
    (∀ n : ℤ, map_symptom_to_score (some (.int n)) = some (n : ℚ)) ∧
    (∀ q : ℚ, map_symptom_to_score (some (.float q)) = some q) ∧
    (∀ lbl sc, (lbl, sc) ∈ SYMPTOM_SEVERITY_MAP →
      map_symptom_to_score (some (.str lbl)) = some sc ∧ 0 ≤ sc ∧ sc ≤ 10) ∧
    map_symptom_to_score (some (.str "7.5")) = some (15 / 2 : ℚ) ∧
    (∀ s, lookupMap SYMPTOM_SEVERITY_MAP s = none → parseFloat s = none →
      map_symptom_to_score (some (.str s)) = none) ∧
    (∀ r, map_symptom_to_score (some (.obj r)) = none) := by
  refine ⟨rfl, fun n => rfl, fun q => rfl, ?_, by with_unfolding_all decide, ?_,
    fun r => rfl⟩
  · intro lbl sc h
    fin_cases h <;>
      exact ⟨by with_unfolding_all decide, by decide, by decide⟩
  · intro s h1 h2
    simp [map_symptom_to_score, h1, h2]

/-- Witness for C4 discharging the membership and the
unrecognized-string hypotheses at concrete inputs. -/
theorem C4_severity_mapping_witness :
    (("Heavy", (10 : ℚ)) ∈ SYMPTOM_SEVERITY_MAP ∧
      map_symptom_to_score (some (.str "Heavy")) = some 10) ∧
    (lookupMap SYMPTOM_SEVERITY_MAP "garbage" = none ∧
      parseFloat "garbage" = none ∧
      map_symptom_to_score (some (.str "garbage")) = none) :=
  ⟨⟨by decide, (C4_severity_mapping.2.2.2.1 "Heavy" 10 (by decide)).1⟩,
   ⟨by decide, by with_unfolding_all decide,
    C4_severity_mapping.2.2.2.2.2.1 "garbage" (by decide)
      (by with_unfolding_all decide)⟩⟩

/-- **C5**: `_map_symptom_to_score` never raises: under the explicit
exception model every input produces `Except.ok`, and the value agrees
with the pure function (every failure mode degrades to `None`). -/
theorem C5_mapper_never_raises (v : Option PyVal) :
    map_symptom_to_score_E v = Except.ok (map_symptom_to_score v) := by
  match v with
  | none => rfl
  | some (.int n) => rfl
  | some (.float q) => rfl
  | some (.obj r) => rfl
  | some (.str s) =>
    rw [map_symptom_to_score_E, map_symptom_to_score]
    rcases h : lookupMap SYMPTOM_SEVERITY_MAP s with - | m
    · rcases h2 : parseFloat s with - | q <;> simp [pyFloatE, h2]
    · rfl

/-- **C6**: `analyze_symptom_statistics` returns the insufficient-data
sentinel exactly when fewer than 7 non-null mapped values are extracted;
with exactly 6 valid values it returns `none`, with exactly 7 a populated
result. -/
theorem C6_statistics_threshold :
    (∀ entries key, analyze_symptom_statistics entries key = none ↔
      (symptomValues entries key).length < 7) ∧
    analyze_symptom_statistics sixValidEntries "rest" = none ∧
    (analyze_symptom_statistics sevenValidEntries "rest").isSome = true := by
  refine ⟨?_, by with_unfolding_all decide, by with_unfolding_all decide⟩
  intro entries key
  rw [analyze_symptom_statistics]
  simp only [min_data_points]
  split
  next h => simp [h]
  next h => simp [h]

/-- **C7 counterexample**: the guard in the source is `previous_avg > 0`,
not `previous_avg != 0`.  On rest values `[-3, -3, -3, 0, 0, 0, 0]` the
previous-half average is −3 (nonzero), the recent-half average is 0, yet
`percent_change` is 0 while the claimed formula gives
`(0 − (−3)) / (−3) · 100 = −100 ≠ 0`. -/
theorem C7_percent_change_counterexample :
    (analyze_symptom_statistics negPrevEntries "rest").map
      SymptomStatistics.previous_avg = some (-3) ∧
    (analyze_symptom_statistics negPrevEntries "rest").map
      SymptomStatistics.recent_avg = some 0 ∧
    (analyze_symptom_statistics negPrevEntries "rest").map
      SymptomStatistics.percent_change = some 0 ∧
    ((0 : ℚ) - (-3)) / (-3) * 100 ≠ 0 := by
  refine ⟨?_, ?_, ?_, ?_⟩ <;> with_unfolding_all decide

/-- **C7 (amended)**: with at least 7 extracted values,
`percent_change` equals the 2-decimal rounding of
`(recent_avg − previous_avg) / previous_avg · 100` whenever the
previous-half average is positive, and equals 0 whenever it is ≤ 0 (the
source guards on `previous_avg > 0`, not on `≠ 0`); in particular five
zeros followed by five nines give `previous_avg = 0`, `recent_avg = 9`
and `percent_change = 0`. -/
theorem C7_percent_change_amended :
    (∀ entries key, 7 ≤ (symptomValues entries key).length →
      (0 < qmean ((symptomValues entries key).take
          ((symptomValues entries key).length / 2)) →
        (analyze_symptom_statistics entries key).map
            SymptomStatistics.percent_change =
          some (roundTo 2
            ((qmean ((symptomValues entries key).drop
                ((symptomValues entries key).length / 2)) -
              qmean ((symptomValues entries key).take
                ((symptomValues entries key).length / 2))) /
              qmean ((symptomValues entries key).take
                ((symptomValues entries key).length / 2)) * 100))) ∧
      (qmean ((symptomValues entries key).take
          ((symptomValues entries key).length / 2)) ≤ 0 →
        (analyze_symptom_statistics entries key).map
          SymptomStatistics.percent_change = some 0)) ∧
    (analyze_symptom_statistics tenZeroNine "rest").map
      SymptomStatistics.previous_avg = some 0 ∧
    (analyze_symptom_statistics tenZeroNine "rest").map
      SymptomStatistics.recent_avg = some 9 ∧
    (analyze_symptom_statistics tenZeroNine "rest").map
      SymptomStatistics.percent_change = some 0 := by
  refine ⟨?_, by with_unfolding_all decide, by with_unfolding_all decide,
    by with_unfolding_all decide⟩
  intro entries key h
  rw [analyze_symptom_statistics]
  rw [if_neg (by simp only [min_data_points]; omega)]
  constructor
  · intro hpos
    rw [Option.map_some']
    rw [if_pos hpos]
  · intro hle
    rw [Option.map_some']
    rw [if_neg (not_lt.mpr hle)]
    simp only [Option.some.injEq]
    with_unfolding_all decide

/-- Witness for the amended C7 at the concrete ten-entry input. -/
theorem C7_percent_change_amended_witness :
    7 ≤ (symptomValues tenZeroNine "rest").length ∧
    qmean ((symptomValues tenZeroNine "rest").take
      ((symptomValues tenZeroNine "rest").length / 2)) ≤ 0 ∧
    (analyze_symptom_statistics tenZeroNine "rest").map
      SymptomStatistics.percent_change = some 0 :=
  ⟨by with_unfolding_all decide, by with_unfolding_all decide,
   (C7_percent_change_amended.1 tenZeroNine "rest"
     (by with_unfolding_all decide)).2 (by with_unfolding_all decide)⟩

/-- The two trend classifiers agree at every slope whose absolute value
is not exactly 0.05: `analyze_symptom_statistics` tests
`slope > 0.05` / `slope < -0.05` while `_analyze_trend` tests
`|slope| < 0.05` first, so they differ only on the boundary. -/
theorem trend_classifiers_agree (sl : ℚ) (hs : |sl| ≠ 0.05) :
    (if 0.05 < sl then "worsening"
      else if sl < -0.05 then "improving" else "stable") =
    (if |sl| < 0.05 then "stable"
      else if 0 < sl then "worsening" else "improving") := by
  by_cases h1 : (0.05 : ℚ) < sl
  · rw [if_pos h1, if_neg, if_pos (by linarith)]
    rw [abs_lt]
    rintro ⟨-, h⟩
    linarith
  · by_cases h2 : sl < -0.05
    · rw [if_neg h1, if_pos h2, if_neg, if_neg (by linarith)]
      rw [abs_lt]
      rintro ⟨h, -⟩
      linarith
    · rw [if_neg h1, if_neg h2, if_pos]
      have habs : |sl| ≤ 0.05 := abs_le.mpr ⟨by linarith, by linarith⟩
      exact lt_of_le_of_ne habs hs

/-- **C8 counterexample**: on the rest series `0, 0.05, …, 0.3` (numeric
strings) the regression slope is exactly 0.05, where
`analyze_symptom_statistics` classifies the trend "stable" while
`_analyze_trend` classifies it "worsening" — the two functions do not
assign the same label for every slope. -/
theorem C8_trend_counterexample :
    linregressSlope (symptomValues boundarySlopeEntries "rest") = 0.05 ∧
    (analyze_symptom_statistics boundarySlopeEntries "rest").map
      SymptomStatistics.trend = some "stable" ∧
    (analyze_trend (symptomValues boundarySlopeEntries "rest")).1 =
      "worsening" ∧
    ("stable" : String) ≠ "worsening" := by
  refine ⟨?_, ?_, ?_, ?_⟩ <;> with_unfolding_all decide

/-- **C8 (amended)**: whenever the regression slope of the extracted
series is not exactly ±0.05 (and at least 7 values are present), the
trend label of `analyze_symptom_statistics` coincides with the direction
label of `_analyze_trend` on the same values. -/
theorem C8_trend_amended (entries : List PulseEntry) (key : String)
    (h : 7 ≤ (symptomValues entries key).length)
    (hs : |linregressSlope (symptomValues entries key)| ≠ 0.05) :
    (analyze_symptom_statistics entries key).map SymptomStatistics.trend =
      some (analyze_trend (symptomValues entries key)).1 := by
  rw [analyze_symptom_statistics, analyze_trend]
  rw [if_neg (by simp only [min_data_points]; omega),
    if_neg (by simp only [min_data_points]; omega)]
  rw [Option.map_some']
  exact congrArg some (trend_classifiers_agree _ hs)

/-- Witness for the amended C8 at a constant series (slope 0). -/
theorem C8_trend_amended_witness :
    7 ≤ (symptomValues sevenValidEntries "rest").length ∧
    |linregressSlope (symptomValues sevenValidEntries "rest")| ≠ 0.05 ∧
    (analyze_symptom_statistics sevenValidEntries "rest").map
      SymptomStatistics.trend =
      some (analyze_trend (symptomValues sevenValidEntries "rest")).1 :=
  ⟨by with_unfolding_all decide, by with_unfolding_all decide,
   C8_trend_amended sevenValidEntries "rest" (by with_unfolding_all decide)
     (by with_unfolding_all decide)⟩

theorem length_pos_of_ne_empty (s : String) (h : s ≠ "") : 0 < s.length := by
  rcases s with ⟨d⟩
  cases d with
  | nil => exact absurd rfl h
  | cons a t => simp [String.length]

/-- **C9 counterexample**: two calls that differ in an argument can yield
the same key: Python hashes `"|".join(str(arg) ...)`, and `str(1)` equals
`str("1")`, so the distinct arguments `1` (int) and `"1"` (string)
produce identical keys under the same prefix. -/
theorem C9_key_counterexample :
    generate_cache_key [PyVal.int 1] "p" = generate_cache_key [PyVal.str "1"] "p" ∧
    PyVal.int 1 ≠ PyVal.str "1" := by
  constructor
  · have h : pyStr (PyVal.int 1) = pyStr (PyVal.str "1") := rfl
    rw [generate_cache_key, generate_cache_key, List.map_singleton,
      List.map_singleton, h]
  · intro h
    exact PyVal.noConfusion h

/-- **C9 (amended)**: `generate_cache_key` is deterministic — identical
argument tuples and prefix always yield the same key — and calls with the
same arguments but different prefixes always yield different keys.
Calls that differ only in an argument are *not* guaranteed distinct keys:
arguments with equal string representations collide (see the
counterexample), and distinct representations could still collide in the
hash. -/
theorem C9_key_amended :
    (∀ (args₁ args₂ : List PyVal) (p₁ p₂ : String), args₁ = args₂ → p₁ = p₂ →
      generate_cache_key args₁ p₁ = generate_cache_key args₂ p₂) ∧
    (∀ (args : List PyVal) (p₁ p₂ : String), p₁ ≠ p₂ →
      generate_cache_key args p₁ ≠ generate_cache_key args p₂) := by
  constructor
  · rintro args₁ args₂ p₁ p₂ rfl rfl
    rfl
  · intro args p₁ p₂ hne heq
    rw [generate_cache_key, generate_cache_key] at heq
    by_cases h1 : p₁ = "" <;> by_cases h2 : p₂ = ""
    · exact hne (h1.trans h2.symm)
    · rw [if_neg (fun hh => hh h1), if_pos h2] at heq
      have hlen := congrArg String.length heq
      rw [String.length_append, String.length_append] at hlen
      have hp := length_pos_of_ne_empty p₂ h2
      have hcolon : (":" : String).length = 1 := rfl
      omega
    · rw [if_pos h1, if_neg (fun hh => hh h2)] at heq
      have hlen := congrArg String.length heq
      rw [String.length_append, String.length_append] at hlen
      have hp := length_pos_of_ne_empty p₁ h1
      have hcolon : (":" : String).length = 1 := rfl
      omega
    · rw [if_pos h1, if_pos h2] at heq
      have hdata := congrArg String.data heq
      rw [String.data_append, String.data_append, String.data_append,
        String.data_append] at hdata
      exact hne (String.ext
        (List.append_cancel_right (List.append_cancel_right hdata)))

/-- Witness for the amended C9: same argument list, prefixes "a" and "b",
different keys. -/
theorem C9_key_amended_witness :
    ("a" : String) ≠ "b" ∧
    generate_cache_key [PyVal.str "x"] "a" ≠ generate_cache_key [PyVal.str "x"] "b" :=
  ⟨by decide, C9_key_amended.2 [PyVal.str "x"] "a" "b" (by decide)⟩

end Selene
